import Mathlib

/-!
A shallow embedding of the geometric layout engine of the floor-plan editor
(`src/frontend/lib/editor/editorUtils.ts`), together with theorems settling
the frozen claims about it.

JavaScript numbers are modelled as exact rationals (`ℚ`); the code under
consideration performs only field arithmetic, comparisons, `Math.round`,
`Math.min`/`Math.max` and `Math.abs`, all of which are exact over `ℚ`.
JavaScript's `Map<string, BoundingBox>` working store is modelled as a total
function `String → BoundingBox`: every key the code ever reads has been
written first (all room ids are inserted up front and the moved id is
written explicitly), so the default value of the total function is never
observed.
-/

namespace DiversityGenerator

/-- A 2-D point, from `editorTypes.ts` (`{x, y}`). -/
structure Point where
  x : ℚ
  y : ℚ
deriving DecidableEq

/-- An axis-aligned bounding box, from `editorTypes.ts` (`{x, y, width, height}`). -/
structure BoundingBox where
  x : ℚ
  y : ℚ
  width : ℚ
  height : ℚ
deriving DecidableEq

/-- Grid configuration, from `editorTypes.ts` (`{size, snapEnabled, visible}`). -/
structure GridConfig where
  size : ℚ
  snapEnabled : Bool
  visible : Bool
deriving DecidableEq

/-- An editor room, from `editorTypes.ts` (`EditorRoom`).  The room-size
category is modelled as a plain string. -/
structure EditorRoom where
  id : String
  roomType : String
  displayName : String
  points : List Point
  bounds : BoundingBox
  fillColor : String
  trainingColor : String
  areaSqft : ℚ
  widthInches : ℚ
  heightInches : ℚ
  estimatedSize : String
  isSelected : Bool
  isHovered : Bool
  isLocked : Bool
deriving DecidableEq

/-- Modelled from the spec: the fixed minimum room side length
(`MIN_ROOM_SIZE` in `editorTypes.ts`, which is not among the sources);
the spec's data-model section gives "a fixed minimum, e.g. 20 units". -/
def MIN_ROOM_SIZE : ℚ := 20

/-- Modelled from the spec: the fixed square canvas dimension
(`CANVAS_SIZE` in `editorTypes.ts`, which is not among the sources); the
spec fixes only that it is a single positive square dimension shared by all
coordinate math, so an arbitrary positive value is assumed here.  Every
theorem below that genuinely depends on it would hold for any positive
value. -/
def CANVAS_SIZE : ℚ := 800

/-- `Math.round` of JavaScript: round half toward positive infinity. -/
def jsRound (q : ℚ) : ℤ := ⌊q + 1/2⌋

/-- `snapToGrid(value, gridSize)` — `Math.round(value / gridSize) * gridSize`. -/
def snapToGrid (value gridSize : ℚ) : ℚ :=
  (jsRound (value / gridSize) : ℚ) * gridSize

/-- `snapPointToGrid(point, grid)`. -/
def snapPointToGrid (point : Point) (grid : GridConfig) : Point :=
  if grid.snapEnabled = false then point
  else ⟨snapToGrid point.x grid.size, snapToGrid point.y grid.size⟩

/-- `snapBoundsToGrid(bounds, grid)` — snap all four corners, re-derive the
size from the snapped corners and clamp it to `MIN_ROOM_SIZE`. -/
def snapBoundsToGrid (bounds : BoundingBox) (grid : GridConfig) : BoundingBox :=
  if grid.snapEnabled = false then bounds
  else
    let x := snapToGrid bounds.x grid.size
    let y := snapToGrid bounds.y grid.size
    let right := snapToGrid (bounds.x + bounds.width) grid.size
    let bottom := snapToGrid (bounds.y + bounds.height) grid.size
    ⟨x, y, max MIN_ROOM_SIZE (right - x), max MIN_ROOM_SIZE (bottom - y)⟩

/-- `getBoundingBox(points)` — min/max extents, zero box for an empty list.
`Math.min(...xs)` / `Math.max(...xs)` are modelled as left folds. -/
def getBoundingBox (points : List Point) : BoundingBox :=
  match points with
  | [] => ⟨0, 0, 0, 0⟩
  | p :: ps =>
    let minX := ps.foldl (fun m q => min m q.x) p.x
    let minY := ps.foldl (fun m q => min m q.y) p.y
    let maxX := ps.foldl (fun m q => max m q.x) p.x
    let maxY := ps.foldl (fun m q => max m q.y) p.y
    ⟨minX, minY, maxX - minX, maxY - minY⟩

/-- `boundsToPoints(bounds)` — the four rectangle corners. -/
def boundsToPoints (bounds : BoundingBox) : List Point :=
  [⟨bounds.x, bounds.y⟩,
   ⟨bounds.x + bounds.width, bounds.y⟩,
   ⟨bounds.x + bounds.width, bounds.y + bounds.height⟩,
   ⟨bounds.x, bounds.y + bounds.height⟩]

/-- `boundsOverlap(a, b)` — strict overlap; edge-touching is not overlap. -/
def boundsOverlap (a b : BoundingBox) : Bool :=
  !(decide (a.x + a.width ≤ b.x) || decide (b.x + b.width ≤ a.x) ||
    decide (a.y + a.height ≤ b.y) || decide (b.y + b.height ≤ a.y))

/-- `boundsAdjacent(a, b, tolerance)` — non-overlapping boxes whose
projections overlap on one axis while the gap on the other axis lies in
`[0, tolerance]`. -/
def boundsAdjacent (a b : BoundingBox) (tolerance : ℚ) : Bool :=
  if boundsOverlap a b then false
  else
    let gapLeft := a.x - (b.x + b.width)
    let gapRight := b.x - (a.x + a.width)
    let gapTop := a.y - (b.y + b.height)
    let gapBottom := b.y - (a.y + a.height)
    let horizontalOverlap :=
      !(decide (a.y + a.height ≤ b.y) || decide (b.y + b.height ≤ a.y))
    let horizontallyAdjacent := horizontalOverlap &&
      ((decide (0 ≤ gapLeft) && decide (gapLeft ≤ tolerance)) ||
       (decide (0 ≤ gapRight) && decide (gapRight ≤ tolerance)))
    let verticalOverlap :=
      !(decide (a.x + a.width ≤ b.x) || decide (b.x + b.width ≤ a.x))
    let verticallyAdjacent := verticalOverlap &&
      ((decide (0 ≤ gapTop) && decide (gapTop ≤ tolerance)) ||
       (decide (0 ≤ gapBottom) && decide (gapBottom ≤ tolerance)))
    horizontallyAdjacent || verticallyAdjacent

/-- `getBoundsCenter(bounds)`. -/
def getBoundsCenter (bounds : BoundingBox) : Point :=
  ⟨bounds.x + bounds.width / 2, bounds.y + bounds.height / 2⟩

/-- `pixelsToSqft(pixelArea, canvasSize)` — fixed canvas-to-house scale. -/
def pixelsToSqft (pixelArea canvasSize : ℚ) : ℚ :=
  let typicalHouseSqft : ℚ := 2000
  let canvasArea := canvasSize * canvasSize
  let scaleFactor := typicalHouseSqft / canvasArea
  pixelArea * scaleFactor

/-- `sqftToPixels(sqft, canvasSize)`. -/
def sqftToPixels (sqft canvasSize : ℚ) : ℚ :=
  let typicalHouseSqft : ℚ := 2000
  let canvasArea := canvasSize * canvasSize
  let scaleFactor := canvasArea / typicalHouseSqft
  sqft * scaleFactor

/-- `pixelsToInches(pixels, canvasSize)`. -/
def pixelsToInches (pixels canvasSize : ℚ) : ℚ :=
  let typicalWidthInches : ℚ := 600
  pixels / canvasSize * typicalWidthInches

/-- The canvas clamp applied by `applySpringNetwork` after snapping
(`snapped.x = Math.max(0, Math.min(CANVAS_SIZE - snapped.width, snapped.x))`
and the same for `y`). -/
def clampToCanvas (b : BoundingBox) : BoundingBox :=
  { b with
    x := max 0 (min (CANVAS_SIZE - b.width) b.x),
    y := max 0 (min (CANVAS_SIZE - b.height) b.y) }

/-- The spec's notion of two boxes' interiors intersecting: some point lies
strictly inside both boxes.  This is the specification-side definition used
to compare `boundsOverlap` against the spec's wording. -/
def interiorsIntersect (a b : BoundingBox) : Prop :=
  ∃ p : Point,
    (a.x < p.x ∧ p.x < a.x + a.width ∧ a.y < p.y ∧ p.y < a.y + a.height) ∧
    (b.x < p.x ∧ p.x < b.x + b.width ∧ b.y < p.y ∧ p.y < b.y + b.height)

/-- Models the value held by the caller's `newBounds` object after
`applySpringNetwork` returns.  In the source, `workingBounds.set(movedRoomId,
newBounds)` stores the caller's object by reference; no later pass replaces
that map entry, and the snap-and-clamp pass computes
`snapBoundsToGrid(bounds, grid)`, which returns the *same* object when
`grid.snapEnabled` is false, and then assigns `snapped.x`/`snapped.y` in
place.  So with snapping disabled the caller's object ends up holding the
clamped value, while with snapping enabled a fresh object is produced and
the caller's object is untouched.  (The final cleanup loop works on spread
copies and never mutates this object.) -/
def callerNewBoundsAfterCall (newBounds : BoundingBox) (grid : GridConfig) : BoundingBox :=
  if grid.snapEnabled = false then clampToCanvas newBounds else newBounds

/-- The side on which a connected room touches, from `editorUtils.ts`
(`ConnectionSide`). -/
inductive ConnectionSide where
  | left
  | right
  | top
  | bottom
deriving DecidableEq

/-- A derived room connection, from `editorUtils.ts` (`RoomConnection`). -/
structure RoomConnection where
  roomId : String
  side : ConnectionSide
  offset : ℚ
deriving DecidableEq

/-- `findAdjacentRooms(room, allRooms, tolerance)` — all rooms adjacent to
`room`, with connection side and edge offset.  The conditional pushes of the
source loop are modelled as a `filterMap`. -/
def findAdjacentRooms (room : EditorRoom) (allRooms : List EditorRoom)
    (tolerance : ℚ) : List RoomConnection :=
  allRooms.filterMap (fun other =>
    if other.id = room.id then none
    else if boundsAdjacent room.bounds other.bounds tolerance then
      let roomCenter := getBoundsCenter room.bounds
      let otherCenter := getBoundsCenter other.bounds
      let dx := otherCenter.x - roomCenter.x
      let dy := otherCenter.y - roomCenter.y
      if |dy| < |dx| then
        let side := if 0 < dx then ConnectionSide.right else ConnectionSide.left
        let overlapTop := max room.bounds.y other.bounds.y
        let overlapBottom := min (room.bounds.y + room.bounds.height)
          (other.bounds.y + other.bounds.height)
        let offset := ((overlapTop + overlapBottom) / 2 - room.bounds.y) / room.bounds.height
        some ⟨other.id, side, max 0 (min 1 offset)⟩
      else
        let side := if 0 < dy then ConnectionSide.bottom else ConnectionSide.top
        let overlapLeft := max room.bounds.x other.bounds.x
        let overlapRight := min (room.bounds.x + room.bounds.width)
          (other.bounds.x + other.bounds.width)
        let offset := ((overlapLeft + overlapRight) / 2 - room.bounds.x) / room.bounds.width
        some ⟨other.id, side, max 0 (min 1 offset)⟩
    else none)

/-- The connectivity graph lookup `originalGraph.connections.get(rid) || []`
for the graph built by `buildConnectivityGraph(rooms)`: the map holds, for
each room id, `findAdjacentRooms` of the *last* room in the list with that
id (later `Map.set` calls win), and the lookup of an absent id yields `[]`. -/
def graphConnections (rooms : List EditorRoom) (rid : String) : List RoomConnection :=
  match (rooms.filter (fun r => r.id == rid)).getLast? with
  | some r => findAdjacentRooms r rooms 5
  | none => []

/-- `calculateConnectedPosition(movedBounds, connectedRoom, connection)`. -/
def calculateConnectedPosition (movedBounds : BoundingBox) (connectedRoom : EditorRoom)
    (connection : RoomConnection) : Point :=
  match connection.side with
  | ConnectionSide.right =>
    ⟨movedBounds.x + movedBounds.width,
     movedBounds.y + connection.offset * movedBounds.height - connectedRoom.bounds.height / 2⟩
  | ConnectionSide.left =>
    ⟨movedBounds.x - connectedRoom.bounds.width,
     movedBounds.y + connection.offset * movedBounds.height - connectedRoom.bounds.height / 2⟩
  | ConnectionSide.bottom =>
    ⟨movedBounds.x + connection.offset * movedBounds.width - connectedRoom.bounds.width / 2,
     movedBounds.y + movedBounds.height⟩
  | ConnectionSide.top =>
    ⟨movedBounds.x + connection.offset * movedBounds.width - connectedRoom.bounds.width / 2,
     movedBounds.y - connectedRoom.bounds.height⟩

/-- The working store of bounds, JavaScript's `Map<string, BoundingBox>`,
as a total function (see the module docstring). -/
abbrev WorkingBounds : Type := String → BoundingBox

/-- `workingBounds.set(k, v)`. -/
def updateWB (wb : WorkingBounds) (k : String) (v : BoundingBox) : WorkingBounds :=
  fun k' => if k' = k then v else wb k'

/-- Read an entry (`workingBounds.get(k)!`). -/
def getWB (wb : WorkingBounds) (k : String) : BoundingBox := wb k

/-- The initial working copy: `rooms.forEach(r => workingBounds.set(r.id,
{ ...r.bounds }))`. -/
def initWB (rooms : List EditorRoom) : WorkingBounds :=
  rooms.foldl (fun wb r => updateWB wb r.id r.bounds) (fun _ => ⟨0, 0, 0, 0⟩)

/-- One step of the solver's first (attraction) pass: pull one directly
connected room 60% of the way toward the position that preserves its
connection to the moved room. -/
def attractionStep (movedRoomId : String) (rooms : List EditorRoom)
    (wb : WorkingBounds) (connection : RoomConnection) : WorkingBounds :=
  match rooms.find? (fun r => r.id == connection.roomId) with
  | none => wb
  | some connectedRoom =>
    if connectedRoom.isLocked then wb
    else
      let movedBounds := getWB wb movedRoomId
      let currentBounds := getWB wb connection.roomId
      let idealPos := calculateConnectedPosition movedBounds connectedRoom connection
      let springStrength : ℚ := 3/5
      let newX := currentBounds.x + (idealPos.x - currentBounds.x) * springStrength
      let newY := currentBounds.y + (idealPos.y - currentBounds.y) * springStrength
      updateWB wb connection.roomId { currentBounds with x := newX, y := newY }

/-- The per-pair contribution of the solver's repulsion pass: the push added
to `(adjustX, adjustY)` for one overlapping neighbour.  (The source also
computes `dist = Math.sqrt(dx*dx + dy*dy) || 1`, which is never used
afterwards, so it is not modelled.) -/
def repulsionContribution (bounds otherBounds : BoundingBox) : ℚ × ℚ :=
  if boundsOverlap bounds otherBounds then
    let centerA := getBoundsCenter bounds
    let centerB := getBoundsCenter otherBounds
    let dx := centerA.x - centerB.x
    let dy := centerA.y - centerB.y
    let overlapX := min (bounds.x + bounds.width - otherBounds.x)
      (otherBounds.x + otherBounds.width - bounds.x)
    let overlapY := min (bounds.y + bounds.height - otherBounds.y)
      (otherBounds.y + otherBounds.height - bounds.y)
    if overlapX < overlapY then ((if 0 < dx then (1 : ℚ) else -1) * (overlapX + 2), 0)
    else (0, (if 0 < dy then (1 : ℚ) else -1) * (overlapY + 2))
  else (0, 0)

/-- One step of the solver's second (repulsion) pass: accumulate the pushes
of every overlapping neighbour against `room` and apply them once.  The
source reads `bounds` once before the inner loop. -/
def repulsionStep (movedRoomId : String) (rooms : List EditorRoom)
    (wb : WorkingBounds) (room : EditorRoom) : WorkingBounds :=
  if room.id = movedRoomId then wb
  else if room.isLocked then wb
  else
    let bounds := getWB wb room.id
    let adjust := rooms.foldl (fun (adjust : ℚ × ℚ) other =>
      if other.id = room.id then adjust
      else
        let c := repulsionContribution bounds (getWB wb other.id)
        (adjust.1 + c.1, adjust.2 + c.2)) (0, 0)
    if adjust.1 ≠ 0 ∨ adjust.2 ≠ 0 then
      updateWB wb room.id { bounds with x := bounds.x + adjust.1, y := bounds.y + adjust.2 }
    else wb

/-- The solver's third pass (first three iterations only): pull rooms
connected to the directly connected rooms toward their ideal position at a
weaker 30% strength. -/
def secondaryPass (movedRoomId : String) (rooms : List EditorRoom)
    (directConnections : List RoomConnection) (wb : WorkingBounds) : WorkingBounds :=
  directConnections.foldl (fun wb connection =>
    (graphConnections rooms connection.roomId).foldl (fun wb secondary =>
      if secondary.roomId = movedRoomId then wb
      else
        match rooms.find? (fun r => r.id == secondary.roomId) with
        | none => wb
        | some secondaryRoom =>
          if secondaryRoom.isLocked then wb
          else
            let parentBounds := getWB wb connection.roomId
            let currentBounds := getWB wb secondary.roomId
            let idealPos := calculateConnectedPosition parentBounds secondaryRoom secondary
            let springStrength : ℚ := 3/10
            let newX := currentBounds.x + (idealPos.x - currentBounds.x) * springStrength
            let newY := currentBounds.y + (idealPos.y - currentBounds.y) * springStrength
            updateWB wb secondary.roomId { currentBounds with x := newX, y := newY }) wb) wb

/-- One iteration of the solver's force loop (attraction, repulsion, and in
iterations 0-2 the secondary attraction). -/
def springIteration (movedRoomId : String) (rooms : List EditorRoom)
    (directConnections : List RoomConnection) (iter : Nat) (wb : WorkingBounds) :
    WorkingBounds :=
  let wb1 := directConnections.foldl (attractionStep movedRoomId rooms) wb
  let wb2 := rooms.foldl (repulsionStep movedRoomId rooms) wb1
  if iter < 3 then secondaryPass movedRoomId rooms directConnections wb2 else wb2

/-- The working bounds after the iteration budget of force passes (before
snapping): initial copy, moved room overwritten with `newBounds`, then
`iterations` force iterations. -/
def solverAfterIterations (movedRoomId : String) (newBounds : BoundingBox)
    (rooms : List EditorRoom) (iterations : Nat) : WorkingBounds :=
  let directConnections := graphConnections rooms movedRoomId
  let wb0 := updateWB (initWB rooms) movedRoomId newBounds
  (List.range iterations).foldl
    (fun wb iter => springIteration movedRoomId rooms directConnections iter wb) wb0

/-- The snap-and-clamp pass applied to every working entry
(`workingBounds.forEach` is entrywise, so it is modelled pointwise). -/
def snapClampAll (grid : GridConfig) (wb : WorkingBounds) : WorkingBounds :=
  fun id' => clampToCanvas (snapBoundsToGrid (wb id') grid)

/-- The inner loop body of the final cleanup pass, for a fixed `room` whose
pre-inner-loop bounds are `bounds` (the source reads `bounds` once and does
not refresh it after `workingBounds.set`). -/
def cleanupInnerStep (grid : GridConfig) (roomId : String) (bounds : BoundingBox)
    (st : WorkingBounds × Bool) (other : EditorRoom) : WorkingBounds × Bool :=
  if other.id = roomId then st
  else
    let otherBounds := getWB st.1 other.id
    if boundsOverlap bounds otherBounds then
      let centerA := getBoundsCenter bounds
      let centerB := getBoundsCenter otherBounds
      let overlapX := min (bounds.x + bounds.width - otherBounds.x)
        (otherBounds.x + otherBounds.width - bounds.x)
      let overlapY := min (bounds.y + bounds.height - otherBounds.y)
        (otherBounds.y + otherBounds.height - bounds.y)
      let pushed :=
        if overlapX < overlapY then
          { bounds with
            x := bounds.x + (if centerB.x < centerA.x then (1 : ℚ) else -1) * (overlapX + grid.size) }
        else
          { bounds with
            y := bounds.y + (if centerB.y < centerA.y then (1 : ℚ) else -1) * (overlapY + grid.size) }
      let newBounds := clampToCanvas (snapBoundsToGrid pushed grid)
      (updateWB st.1 roomId newBounds, true)
    else st

/-- The outer loop body of one cleanup sweep: skip the moved room and locked
rooms, else run the inner loop against every other room. -/
def cleanupRoomStep (rooms : List EditorRoom) (grid : GridConfig) (movedRoomId : String)
    (st : WorkingBounds × Bool) (room : EditorRoom) : WorkingBounds × Bool :=
  if room.id = movedRoomId ∨ room.isLocked = true then st
  else rooms.foldl (cleanupInnerStep grid room.id (getWB st.1 room.id)) st

/-- One sweep of the final cleanup loop (`hasOverlap` reset to `false`, then
every room processed). -/
def cleanupSweep (rooms : List EditorRoom) (grid : GridConfig) (movedRoomId : String)
    (wb : WorkingBounds) : WorkingBounds × Bool :=
  rooms.foldl (cleanupRoomStep rooms grid movedRoomId) (wb, false)

/-- The bounded cleanup loop: up to `fuel` sweeps (10 in the source), exiting
early when a sweep finds no overlap; returns the final store and the final
value of the `hasOverlap` flag. -/
def cleanupLoop (rooms : List EditorRoom) (grid : GridConfig) (movedRoomId : String) :
    Nat → WorkingBounds → WorkingBounds × Bool
  | 0, wb => (wb, true)
  | Nat.succ n, wb =>
    let s := cleanupSweep rooms grid movedRoomId wb
    if s.2 then cleanupLoop rooms grid movedRoomId n s.1 else (s.1, false)

/-- The working store and final `hasOverlap` flag after the whole solver
pipeline: force iterations, snap-and-clamp, then the bounded cleanup loop. -/
def solverCleanupResult (movedRoomId : String) (newBounds : BoundingBox)
    (rooms : List EditorRoom) (grid : GridConfig) (iterations : Nat) :
    WorkingBounds × Bool :=
  cleanupLoop rooms grid movedRoomId 10
    (snapClampAll grid (solverAfterIterations movedRoomId newBounds rooms iterations))

/-- The final per-room update of `applySpringNetwork`: reference-stable when
the bounds did not change, else rebuild the room's geometry-derived fields. -/
def applyRoomUpdate (wbF : WorkingBounds) (room : EditorRoom) : EditorRoom :=
  let newRoomBounds := getWB wbF room.id
  if newRoomBounds = room.bounds then room
  else
    { room with
      bounds := newRoomBounds,
      points := boundsToPoints newRoomBounds,
      widthInches := pixelsToInches newRoomBounds.width CANVAS_SIZE,
      heightInches := pixelsToInches newRoomBounds.height CANVAS_SIZE,
      areaSqft := pixelsToSqft (newRoomBounds.width * newRoomBounds.height) CANVAS_SIZE }

/-- `applySpringNetwork(movedRoomId, newBounds, rooms, grid, iterations)`. -/
def applySpringNetwork (movedRoomId : String) (newBounds : BoundingBox)
    (rooms : List EditorRoom) (grid : GridConfig) (iterations : Nat) :
    List EditorRoom :=
  let wbF := (solverCleanupResult movedRoomId newBounds rooms grid iterations).1
  rooms.map (applyRoomUpdate wbF)

/-- A concrete unlocked room used in concrete scenarios: id `"a"`, bounds
off-grid at `x = 3`. -/
def roomA : EditorRoom :=
  ⟨"a", "room", "Room", [], ⟨3, 0, 20, 20⟩, "#ccc", "#ccc", 0, 0, 0, "M",
   false, false, false⟩

/-- A concrete locked room with off-grid bounds (`x = 3`). -/
def lockedRoom : EditorRoom :=
  ⟨"locked", "room", "Room", [], ⟨3, 0, 40, 40⟩, "#ccc", "#ccc", 0, 0, 0, "M",
   false, false, true⟩

/-- A concrete unlocked room with id `"a"` at the origin, grid-aligned. -/
def roomA2 : EditorRoom :=
  ⟨"a", "room", "Room", [], ⟨0, 0, 40, 40⟩, "#ccc", "#ccc", 0, 0, 0, "M",
   false, false, false⟩

/-- A concrete unlocked room with id `"b"`, far from `roomA2`. -/
def roomB : EditorRoom :=
  ⟨"b", "room", "Room", [], ⟨100, 0, 40, 40⟩, "#ccc", "#ccc", 0, 0, 0, "M",
   false, false, false⟩

/-- A concrete locked room whose bounds are grid-aligned and inside the
canvas. -/
def lockedRoomAligned : EditorRoom :=
  ⟨"locked2", "room", "Room", [], ⟨40, 40, 40, 40⟩, "#ccc", "#ccc", 0, 0, 0, "M",
   false, false, true⟩

-- ===========================================================================
-- Theorems
-- ===========================================================================

/-- Evaluation helper: `jsRound q = n` when `n ≤ q + 1/2 < n + 1`. -/
theorem jsRound_eq (q : ℚ) (n : ℤ) (h1 : (n : ℚ) ≤ q + 1/2) (h2 : q + 1/2 < n + 1) :
    jsRound q = n := by
  unfold jsRound
  rw [Int.floor_eq_iff]
  exact ⟨h1, by exact_mod_cast h2⟩

/-- Evaluation helper: closed form of `snapToGrid` from a rounding bracket. -/
theorem snapToGrid_eq (v s : ℚ) (n : ℤ) (h1 : (n : ℚ) ≤ v / s + 1/2)
    (h2 : v / s + 1/2 < n + 1) : snapToGrid v s = n * s := by
  unfold snapToGrid
  rw [jsRound_eq (v / s) n h1 h2]

/-- Claim C5: for all bounding boxes `a` and `b` and every tolerance `t`, if
`boundsOverlap a b` is true then `boundsAdjacent a b t` is false — overlap
and adjacency are mutually exclusive. -/
theorem boundsOverlap_imp_not_boundsAdjacent (a b : BoundingBox) (t : ℚ)
    (h : boundsOverlap a b = true) : boundsAdjacent a b t = false := by
  unfold boundsAdjacent
  simp [h]

/-- Witness for C5: two concretely overlapping boxes are not adjacent. -/
theorem boundsOverlap_imp_not_boundsAdjacent_witness :
    boundsAdjacent ⟨0, 0, 40, 40⟩ ⟨20, 0, 40, 40⟩ 5 = false :=
  boundsOverlap_imp_not_boundsAdjacent ⟨0, 0, 40, 40⟩ ⟨20, 0, 40, 40⟩ 5
    (by norm_num [boundsOverlap])

/-- Claim C6: for every positive `x`, at the default canvas size, the
pixel-area/square-feet conversions are exact algebraic inverses of one
another. -/
theorem unit_conversion_round_trip (x : ℚ) (hx : 0 < x) :
    pixelsToSqft (sqftToPixels x CANVAS_SIZE) CANVAS_SIZE = x ∧
    sqftToPixels (pixelsToSqft x CANVAS_SIZE) CANVAS_SIZE = x := by
  constructor <;>
    · simp only [pixelsToSqft, sqftToPixels, CANVAS_SIZE]
      ring_nf

/-- Witness for C6: the round trip at `x = 5`. -/
theorem unit_conversion_round_trip_witness :
    pixelsToSqft (sqftToPixels 5 CANVAS_SIZE) CANVAS_SIZE = 5 ∧
    sqftToPixels (pixelsToSqft 5 CANVAS_SIZE) CANVAS_SIZE = 5 :=
  unit_conversion_round_trip 5 (by norm_num)

/-- Claim C9: the repulsion computation is a total function of its inputs
(it is a plain Lean function over exact rationals, so it can produce neither
`NaN` nor an undefined position), and for two overlapping rooms whose
centers exactly coincide the push is applied in the fixed default direction
(the `-1` branch of the sign tests): the full penetration-plus-2 push in the
negative direction along the axis of smaller penetration. -/
theorem repulsion_coincident_centers_default_direction (bounds otherBounds : BoundingBox)
    (hov : boundsOverlap bounds otherBounds = true)
    (hcent : getBoundsCenter bounds = getBoundsCenter otherBounds) :
    repulsionContribution bounds otherBounds =
      (if min (bounds.x + bounds.width - otherBounds.x)
            (otherBounds.x + otherBounds.width - bounds.x) <
          min (bounds.y + bounds.height - otherBounds.y)
            (otherBounds.y + otherBounds.height - bounds.y) then
        (-(min (bounds.x + bounds.width - otherBounds.x)
            (otherBounds.x + otherBounds.width - bounds.x) + 2), 0)
      else
        (0, -(min (bounds.y + bounds.height - otherBounds.y)
            (otherBounds.y + otherBounds.height - bounds.y) + 2))) := by
  unfold repulsionContribution
  simp only [hov, if_true, hcent, sub_self, lt_irrefl, if_false]
  split <;> simp [neg_one_mul]

/-- Witness for C9: two identical 40×40 rooms at the origin have coincident
centers; the push is `(0, -42)`. -/
theorem repulsion_coincident_centers_witness :
    repulsionContribution ⟨0, 0, 40, 40⟩ ⟨0, 0, 40, 40⟩ = (0, -42) := by
  have h := repulsion_coincident_centers_default_direction ⟨0, 0, 40, 40⟩ ⟨0, 0, 40, 40⟩
    (by norm_num [boundsOverlap]) rfl
  rw [h]
  norm_num

/-- Claim C4 (refuted; code bug): `applySpringNetwork` does mutate the
caller's `newBounds` object in place when grid snapping is disabled: the
object is aliased into the working store and the canvas clamp is written
through the alias.  At `newBounds = ⟨-10, 0, 40, 40⟩` with snapping
disabled, the caller's object holds `⟨0, 0, 40, 40⟩` after the call. -/
theorem applySpringNetwork_mutates_callers_newBounds :
    callerNewBoundsAfterCall ⟨-10, 0, 40, 40⟩ ⟨20, false, true⟩ ≠ ⟨-10, 0, 40, 40⟩ := by
  norm_num [callerNewBoundsAfterCall, clampToCanvas, CANVAS_SIZE]

/-- Claim C7 (amended): when snapping is disabled `snapBoundsToGrid` is the
identity; when snapping is enabled, the snapped `x` and `y` are integer
multiples of the grid size and width/height are clamped to at least
`MIN_ROOM_SIZE`; the far corners `x + width` and `y + height` are integer
multiples of the grid size provided the corner-derived size was not clamped
(i.e. the snapped corner distance is already at least `MIN_ROOM_SIZE`). -/
theorem snapBoundsToGrid_amended (b : BoundingBox) (g : GridConfig) :
    (g.snapEnabled = false → snapBoundsToGrid b g = b) ∧
    (g.snapEnabled = true →
      (∃ k : ℤ, (snapBoundsToGrid b g).x = (k : ℚ) * g.size) ∧
      (∃ k : ℤ, (snapBoundsToGrid b g).y = (k : ℚ) * g.size) ∧
      MIN_ROOM_SIZE ≤ (snapBoundsToGrid b g).width ∧
      MIN_ROOM_SIZE ≤ (snapBoundsToGrid b g).height ∧
      (MIN_ROOM_SIZE ≤ snapToGrid (b.x + b.width) g.size - snapToGrid b.x g.size →
        ∃ k : ℤ, (snapBoundsToGrid b g).x + (snapBoundsToGrid b g).width = (k : ℚ) * g.size) ∧
      (MIN_ROOM_SIZE ≤ snapToGrid (b.y + b.height) g.size - snapToGrid b.y g.size →
        ∃ k : ℤ, (snapBoundsToGrid b g).y + (snapBoundsToGrid b g).height = (k : ℚ) * g.size)) := by
  constructor
  · intro h
    simp [snapBoundsToGrid, h]
  · intro h
    have hsb : snapBoundsToGrid b g =
        ⟨snapToGrid b.x g.size, snapToGrid b.y g.size,
         max MIN_ROOM_SIZE (snapToGrid (b.x + b.width) g.size - snapToGrid b.x g.size),
         max MIN_ROOM_SIZE (snapToGrid (b.y + b.height) g.size - snapToGrid b.y g.size)⟩ := by
      simp only [snapBoundsToGrid, h, Bool.true_eq_false, if_false]
    rw [hsb]
    refine ⟨⟨jsRound (b.x / g.size), rfl⟩, ⟨jsRound (b.y / g.size), rfl⟩,
      le_max_left _ _, le_max_left _ _, ?_, ?_⟩
    · intro hmin
      refine ⟨jsRound ((b.x + b.width) / g.size), ?_⟩
      show snapToGrid b.x g.size +
        max MIN_ROOM_SIZE (snapToGrid (b.x + b.width) g.size - snapToGrid b.x g.size) = _
      rw [max_eq_right hmin]
      unfold snapToGrid
      ring
    · intro hmin
      refine ⟨jsRound ((b.y + b.height) / g.size), ?_⟩
      show snapToGrid b.y g.size +
        max MIN_ROOM_SIZE (snapToGrid (b.y + b.height) g.size - snapToGrid b.y g.size) = _
      rw [max_eq_right hmin]
      unfold snapToGrid
      ring

/-- Witness for C7: identity with snapping off at an off-grid box, and the
minimum-size clamp with snapping on. -/
theorem snapBoundsToGrid_amended_witness :
    snapBoundsToGrid ⟨3, 4, 25, 35⟩ ⟨20, false, true⟩ = ⟨3, 4, 25, 35⟩ ∧
    MIN_ROOM_SIZE ≤ (snapBoundsToGrid ⟨0, 0, 0, 0⟩ ⟨30, true, true⟩).width :=
  ⟨(snapBoundsToGrid_amended ⟨3, 4, 25, 35⟩ ⟨20, false, true⟩).1 rfl,
   ((snapBoundsToGrid_amended ⟨0, 0, 0, 0⟩ ⟨30, true, true⟩).2 rfl).2.2.1⟩

/-- Counterexample for C7 as stated: with grid size 30 and a degenerate box,
the clamped width is `MIN_ROOM_SIZE = 20`, so the snapped corner
`x + width = 20` is not an integer multiple of the grid size. -/
theorem snapBoundsToGrid_corner_counterexample :
    ¬ ∃ k : ℤ, (snapBoundsToGrid ⟨0, 0, 0, 0⟩ ⟨30, true, true⟩).x +
      (snapBoundsToGrid ⟨0, 0, 0, 0⟩ ⟨30, true, true⟩).width = (k : ℚ) * 30 := by
  have hb : snapBoundsToGrid ⟨0, 0, 0, 0⟩ ⟨30, true, true⟩ = ⟨0, 0, 20, 20⟩ := by
    have h1 : snapToGrid (0 : ℚ) 30 = 0 := by
      have := snapToGrid_eq 0 30 0 (by norm_num) (by norm_num)
      simpa using this
    norm_num [snapBoundsToGrid, h1, MIN_ROOM_SIZE]
  rw [hb]
  rintro ⟨k, hk⟩
  norm_num at hk
  have h2 : (20 : ℤ) = k * 30 := by exact_mod_cast hk
  omega

/-- Claim C8 (amended): for boxes with positive width and height,
`boundsOverlap` is true exactly when the interiors intersect (and hence
edge-touching boxes do not overlap).  The positivity restriction is forced:
a degenerate zero-width box makes `boundsOverlap` true with an empty
interior. -/
theorem boundsOverlap_iff_interiorsIntersect (a b : BoundingBox)
    (ha1 : 0 < a.width) (ha2 : 0 < a.height) (hb1 : 0 < b.width) (hb2 : 0 < b.height) :
    boundsOverlap a b = true ↔ interiorsIntersect a b := by
  unfold boundsOverlap interiorsIntersect
  simp only [Bool.not_eq_true', Bool.or_eq_false_iff, decide_eq_false_iff_not, not_le]
  constructor
  · rintro ⟨⟨⟨h1, h2⟩, h3⟩, h4⟩
    have hpx1 : max a.x b.x < (max a.x b.x + min (a.x + a.width) (b.x + b.width)) / 2 := by
      have : max a.x b.x < min (a.x + a.width) (b.x + b.width) :=
        max_lt (lt_min (by linarith) (by linarith)) (lt_min (by linarith) (by linarith))
      linarith
    have hpx2 : (max a.x b.x + min (a.x + a.width) (b.x + b.width)) / 2 <
        min (a.x + a.width) (b.x + b.width) := by
      have : max a.x b.x < min (a.x + a.width) (b.x + b.width) :=
        max_lt (lt_min (by linarith) (by linarith)) (lt_min (by linarith) (by linarith))
      linarith
    have hpy1 : max a.y b.y < (max a.y b.y + min (a.y + a.height) (b.y + b.height)) / 2 := by
      have : max a.y b.y < min (a.y + a.height) (b.y + b.height) :=
        max_lt (lt_min (by linarith) (by linarith)) (lt_min (by linarith) (by linarith))
      linarith
    have hpy2 : (max a.y b.y + min (a.y + a.height) (b.y + b.height)) / 2 <
        min (a.y + a.height) (b.y + b.height) := by
      have : max a.y b.y < min (a.y + a.height) (b.y + b.height) :=
        max_lt (lt_min (by linarith) (by linarith)) (lt_min (by linarith) (by linarith))
      linarith
    exact ⟨⟨(max a.x b.x + min (a.x + a.width) (b.x + b.width)) / 2,
        (max a.y b.y + min (a.y + a.height) (b.y + b.height)) / 2⟩,
      ⟨lt_of_le_of_lt (le_max_left _ _) hpx1, lt_of_lt_of_le hpx2 (min_le_left _ _),
       lt_of_le_of_lt (le_max_left _ _) hpy1, lt_of_lt_of_le hpy2 (min_le_left _ _)⟩,
      ⟨lt_of_le_of_lt (le_max_right _ _) hpx1, lt_of_lt_of_le hpx2 (min_le_right _ _),
       lt_of_le_of_lt (le_max_right _ _) hpy1, lt_of_lt_of_le hpy2 (min_le_right _ _)⟩⟩
  · rintro ⟨p, ⟨pa1, pa2, pa3, pa4⟩, ⟨pb1, pb2, pb3, pb4⟩⟩
    exact ⟨⟨⟨by linarith, by linarith⟩, by linarith⟩, by linarith⟩

/-- Witness for C8: two overlapping 10×10 boxes have intersecting interiors
by the amended equivalence. -/
theorem boundsOverlap_iff_interiorsIntersect_witness :
    interiorsIntersect ⟨0, 0, 10, 10⟩ ⟨5, 5, 10, 10⟩ :=
  (boundsOverlap_iff_interiorsIntersect ⟨0, 0, 10, 10⟩ ⟨5, 5, 10, 10⟩
    (by norm_num) (by norm_num) (by norm_num) (by norm_num)).mp
    (by norm_num [boundsOverlap])

/-- Counterexample for C8 as stated (over all boxes): a zero-width box
satisfies `boundsOverlap` against a box containing its segment, yet its
interior is empty, so the interiors do not intersect. -/
theorem boundsOverlap_degenerate_counterexample :
    boundsOverlap ⟨0, 0, 0, 10⟩ ⟨-5, 0, 10, 10⟩ = true ∧
    ¬ interiorsIntersect ⟨0, 0, 0, 10⟩ ⟨-5, 0, 10, 10⟩ := by
  constructor
  · norm_num [boundsOverlap]
  · rintro ⟨p, ⟨h1, h2, -, -⟩, -⟩
    simp only at h1 h2
    linarith

/-- Claim C10: for every box with nonnegative width and height, taking the
bounding box of its four corner points reproduces the box exactly. -/
theorem getBoundingBox_boundsToPoints (b : BoundingBox)
    (hw : 0 ≤ b.width) (hh : 0 ≤ b.height) :
    getBoundingBox (boundsToPoints b) = b := by
  obtain ⟨x, y, w, h⟩ := b
  have hw' : (0 : ℚ) ≤ w := hw
  have hh' : (0 : ℚ) ≤ h := hh
  have hminx : min x (x + w) = x := min_eq_left (by linarith)
  have hmaxx : max x (x + w) = x + w := max_eq_right (by linarith)
  have hmaxx2 : max (x + w) x = x + w := max_eq_left (by linarith)
  have hminy : min y (y + h) = y := min_eq_left (by linarith)
  have hmaxy : max y (y + h) = y + h := max_eq_right (by linarith)
  simp only [boundsToPoints, getBoundingBox, List.foldl, hminx, hmaxx, hmaxx2, hminy, hmaxy,
    min_self, max_self]
  congr 1 <;> ring

/-- Witness for C10: the round trip at a concrete box. -/
theorem getBoundingBox_boundsToPoints_witness :
    getBoundingBox (boundsToPoints ⟨1, 2, 30, 40⟩) = ⟨1, 2, 30, 40⟩ :=
  getBoundingBox_boundsToPoints ⟨1, 2, 30, 40⟩ (by norm_num) (by norm_num)

theorem updateWB_self (wb : WorkingBounds) (k : String) (v : BoundingBox) :
    updateWB wb k v k = v := by
  simp [updateWB]

theorem updateWB_ne (wb : WorkingBounds) (k k' : String) (v : BoundingBox) (h : k' ≠ k) :
    updateWB wb k v k' = wb k' := by
  simp [updateWB, h]

/-- A left fold of store transformers none of which touches key `k` leaves
the value at `k` unchanged. -/
theorem foldl_preserve {α : Type} (step : WorkingBounds → α → WorkingBounds) (l : List α)
    (k : String) (h : ∀ wb a, a ∈ l → step wb a k = wb k) :
    ∀ wb, l.foldl step wb k = wb k := by
  induction l with
  | nil => intro wb; rfl
  | cons a t ih =>
    intro wb
    rw [List.foldl_cons, ih (fun wb' a' ha' => h wb' a' (List.mem_cons_of_mem a ha'))]
    exact h wb a (List.mem_cons_self a t)

/-- Pair version of `foldl_preserve` for the cleanup state (store, flag). -/
theorem foldl_preserve_pair {α : Type}
    (step : WorkingBounds × Bool → α → WorkingBounds × Bool) (l : List α)
    (k : String) (h : ∀ st a, a ∈ l → (step st a).1 k = st.1 k) :
    ∀ st, (l.foldl step st).1 k = st.1 k := by
  induction l with
  | nil => intro st; rfl
  | cons a t ih =>
    intro st
    rw [List.foldl_cons, ih (fun st' a' ha' => h st' a' (List.mem_cons_of_mem a ha'))]
    exact h st a (List.mem_cons_self a t)

/-- `findAdjacentRooms` never reports a connection back to the room itself
(the source skips `other.id === room.id`). -/
theorem findAdjacentRooms_roomId_ne (room : EditorRoom) (rooms : List EditorRoom)
    (tol : ℚ) (conn : RoomConnection) (h : conn ∈ findAdjacentRooms room rooms tol) :
    conn.roomId ≠ room.id := by
  unfold findAdjacentRooms at h
  rw [List.mem_filterMap] at h
  obtain ⟨other, -, hf⟩ := h
  by_cases h1 : other.id = room.id
  · rw [if_pos h1] at hf
    exact absurd hf (by simp)
  · rw [if_neg h1] at hf
    by_cases h2 : boundsAdjacent room.bounds other.bounds tol = true
    · simp only [h2, if_true] at hf
      split_ifs at hf <;>
      · rw [Option.some.injEq] at hf
        subst hf
        exact h1
    · simp only [h2, if_false] at hf
      exact absurd hf (by simp)

theorem graphConnections_roomId_ne (rooms : List EditorRoom) (rid : String)
    (conn : RoomConnection) (h : conn ∈ graphConnections rooms rid) :
    conn.roomId ≠ rid := by
  unfold graphConnections at h
  cases hL : (rooms.filter (fun r => r.id == rid)).getLast? with
  | none =>
    rw [hL] at h
    exact absurd h (List.not_mem_nil conn)
  | some r =>
    rw [hL] at h
    have hmem : r ∈ rooms.filter (fun x => x.id == rid) := by
      obtain ⟨hne, heq⟩ := List.mem_getLast?_eq_getLast (Option.mem_def.mpr hL)
      exact heq ▸ List.getLast_mem hne
    have hid : r.id = rid := by simpa using (List.mem_filter.1 hmem).2
    have := findAdjacentRooms_roomId_ne r rooms 5 conn h
    rw [hid] at this
    exact this

/-- With pairwise distinct ids, `rooms.find?` on a member's id returns that
member. -/
theorem find?_id_eq_self (rooms : List EditorRoom) (r : EditorRoom)
    (hnd : (rooms.map EditorRoom.id).Nodup) (hr : r ∈ rooms) :
    rooms.find? (fun x => x.id == r.id) = some r := by
  induction rooms with
  | nil => exact absurd hr (List.not_mem_nil r)
  | cons a t ih =>
    rw [List.map_cons, List.nodup_cons] at hnd
    rcases List.mem_cons.1 hr with rfl | hrt
    · simp [List.find?_cons]
    · have hne : (a.id == r.id) = false := by
        simp only [beq_eq_false_iff_ne, ne_eq]
        intro he
        exact hnd.1 (he ▸ List.mem_map_of_mem EditorRoom.id hrt)
      rw [List.find?_cons]
      simp only [hne]
      exact ih hnd.2 hrt

/-- With pairwise distinct ids, equal ids of members force equal members. -/
theorem room_id_injective {rooms : List EditorRoom}
    (hnd : (rooms.map EditorRoom.id).Nodup) {a b : EditorRoom}
    (ha : a ∈ rooms) (hb : b ∈ rooms) (hab : a.id = b.id) : a = b :=
  List.inj_on_of_nodup_map hnd ha hb hab

/-- The value of the initial working copy at a member's id (generalized over
the fold's base). -/
theorem foldl_init_at : ∀ (rooms : List EditorRoom) (r : EditorRoom) (base : WorkingBounds),
    (rooms.map EditorRoom.id).Nodup → r ∈ rooms →
    (rooms.foldl (fun wb x => updateWB wb x.id x.bounds) base) r.id = r.bounds := by
  intro rooms
  induction rooms with
  | nil =>
    intro r base _ hr
    exact absurd hr (List.not_mem_nil r)
  | cons a t ih =>
    intro r base hnd hr
    rw [List.map_cons, List.nodup_cons] at hnd
    rw [List.foldl_cons]
    rcases List.mem_cons.1 hr with rfl | hrt
    · rw [foldl_preserve _ t r.id ?hpres]
      · exact updateWB_self base r.id r.bounds
      case hpres =>
        intro wb x hx
        refine updateWB_ne wb x.id r.id x.bounds ?_
        intro he
        exact hnd.1 (he ▸ List.mem_map_of_mem EditorRoom.id hx)
    · exact ih r (updateWB base a.id a.bounds) hnd.2 hrt

theorem initWB_at (rooms : List EditorRoom) (r : EditorRoom)
    (hnd : (rooms.map EditorRoom.id).Nodup) (hr : r ∈ rooms) :
    initWB rooms r.id = r.bounds :=
  foldl_init_at rooms r _ hnd hr

/-- The attraction step leaves key `k` unchanged if the connection's target
is a different key, or if the room found for the target is locked. -/
theorem attractionStep_preserve (movedId : String) (rooms : List EditorRoom)
    (wb : WorkingBounds) (c : RoomConnection) (k : String)
    (hk : c.roomId ≠ k ∨
      ∀ cr, rooms.find? (fun x => x.id == c.roomId) = some cr → cr.isLocked = true) :
    attractionStep movedId rooms wb c k = wb k := by
  unfold attractionStep
  cases hfind : rooms.find? (fun x => x.id == c.roomId) with
  | none => rfl
  | some cr =>
    by_cases hl : cr.isLocked = true
    · simp only [hl, if_true]
    · rcases hk with hk | hk
      · simp only [Bool.not_eq_true] at hl
        simp only [hl, Bool.false_eq_true, if_false]
        exact updateWB_ne wb c.roomId k _ (Ne.symm hk)
      · exact absurd (hk cr hfind) hl

/-- The repulsion step leaves key `k` unchanged unless `room` is an unlocked
non-moved room with id `k`. -/
theorem repulsionStep_preserve (movedId : String) (rooms : List EditorRoom)
    (wb : WorkingBounds) (room : EditorRoom) (k : String)
    (hk : room.id = k → room.id ≠ movedId → room.isLocked = false → False) :
    repulsionStep movedId rooms wb room k = wb k := by
  unfold repulsionStep
  by_cases h1 : room.id = movedId
  · rw [if_pos h1]
  · rw [if_neg h1]
    by_cases h2 : room.isLocked = true
    · simp only [h2, if_true]
    · simp only [Bool.not_eq_true] at h2
      simp only [h2, Bool.false_eq_true, if_false]
      have hne : room.id ≠ k := fun he => hk he h1 h2
      split
      · exact updateWB_ne wb room.id k _ (Ne.symm hne)
      · rfl

/-- The secondary pass leaves key `k` unchanged as long as every secondary
connection targeting `k` (other than the moved room, which is skipped)
resolves to a locked room. -/
theorem secondaryPass_preserve (movedId : String) (rooms : List EditorRoom)
    (conns : List RoomConnection) (wb : WorkingBounds) (k : String)
    (hk : ∀ s : RoomConnection, s.roomId = k → s.roomId ≠ movedId →
      ∀ sr, rooms.find? (fun x => x.id == s.roomId) = some sr → sr.isLocked = true) :
    secondaryPass movedId rooms conns wb k = wb k := by
  unfold secondaryPass
  refine foldl_preserve _ _ k ?_ wb
  intro wb' c _
  refine foldl_preserve _ _ k ?_ wb'
  intro wb'' s _
  by_cases h1 : s.roomId = movedId
  · rw [if_pos h1]
  · rw [if_neg h1]
    cases hfind : rooms.find? (fun x => x.id == s.roomId) with
    | none => rfl
    | some sr =>
      by_cases hl : sr.isLocked = true
      · simp only [hl, if_true]
      · by_cases hsk : s.roomId = k
        · exact absurd (hk s hsk h1 sr hfind) hl
        · simp only [Bool.not_eq_true] at hl
          simp only [hl, Bool.false_eq_true, if_false]
          exact updateWB_ne wb'' s.roomId k _ (Ne.symm hsk)

/-- The cleanup inner step only ever writes at the outer room's key. -/
theorem cleanupInnerStep_preserve (grid : GridConfig) (rid : String) (B : BoundingBox)
    (st : WorkingBounds × Bool) (other : EditorRoom) (k : String) (hne : rid ≠ k) :
    (cleanupInnerStep grid rid B st other).1 k = st.1 k := by
  simp only [cleanupInnerStep]
  by_cases h1 : other.id = rid
  · rw [if_pos h1]
  · rw [if_neg h1]
    split
    · exact updateWB_ne st.1 rid k _ (Ne.symm hne)
    · rfl

/-- The cleanup outer step leaves key `k` unchanged unless `room` is an
unlocked non-moved room with id `k`. -/
theorem cleanupRoomStep_preserve (rooms : List EditorRoom) (grid : GridConfig)
    (movedId : String) (st : WorkingBounds × Bool) (room : EditorRoom) (k : String)
    (hk : room.id = k → room.id ≠ movedId → room.isLocked = false → False) :
    (cleanupRoomStep rooms grid movedId st room).1 k = st.1 k := by
  unfold cleanupRoomStep
  by_cases hg : room.id = movedId ∨ room.isLocked = true
  · rw [if_pos hg]
  · rw [if_neg hg]
    push_neg at hg
    have hlocked : room.isLocked = false := by
      cases h : room.isLocked
      · rfl
      · exact absurd h hg.2
    have hne : room.id ≠ k := fun he => hk he hg.1 hlocked
    exact foldl_preserve_pair _ rooms k
      (fun st' other _ => cleanupInnerStep_preserve grid room.id _ st' other k hne) st

theorem cleanupSweep_fst_preserve (rooms : List EditorRoom) (grid : GridConfig)
    (movedId : String) (wb : WorkingBounds) (k : String)
    (hk : ∀ room ∈ rooms, room.id = k → room.id ≠ movedId → room.isLocked = false → False) :
    (cleanupSweep rooms grid movedId wb).1 k = wb k := by
  unfold cleanupSweep
  exact foldl_preserve_pair _ rooms k
    (fun st room hroom => cleanupRoomStep_preserve rooms grid movedId st room k (hk room hroom))
    (wb, false)

theorem cleanupLoop_fst_preserve (rooms : List EditorRoom) (grid : GridConfig)
    (movedId : String) (k : String)
    (hk : ∀ room ∈ rooms, room.id = k → room.id ≠ movedId → room.isLocked = false → False) :
    ∀ (fuel : Nat) (wb : WorkingBounds),
      (cleanupLoop rooms grid movedId fuel wb).1 k = wb k := by
  intro fuel
  induction fuel with
  | zero => intro wb; rfl
  | succ n ih =>
    intro wb
    simp only [cleanupLoop]
    split
    · rw [ih]
      exact cleanupSweep_fst_preserve rooms grid movedId wb k hk
    · exact cleanupSweep_fst_preserve rooms grid movedId wb k hk

/-- One force iteration leaves the moved room's entry unchanged. -/
theorem springIteration_at_moved (movedId : String) (rooms : List EditorRoom)
    (iter : Nat) (wb : WorkingBounds) :
    springIteration movedId rooms (graphConnections rooms movedId) iter wb movedId =
      wb movedId := by
  have hA : ∀ (wb' : WorkingBounds),
      (graphConnections rooms movedId).foldl (attractionStep movedId rooms) wb' movedId =
        wb' movedId :=
    fun wb' => foldl_preserve _ _ movedId
      (fun wb'' c hc => attractionStep_preserve movedId rooms wb'' c movedId
        (Or.inl (graphConnections_roomId_ne rooms movedId c hc))) wb'
  have hR : ∀ (wb' : WorkingBounds),
      rooms.foldl (repulsionStep movedId rooms) wb' movedId = wb' movedId :=
    fun wb' => foldl_preserve _ _ movedId
      (fun wb'' room _ => repulsionStep_preserve movedId rooms wb'' room movedId
        (fun he h1 _ => absurd he h1)) wb'
  have hS : ∀ (wb' : WorkingBounds),
      secondaryPass movedId rooms (graphConnections rooms movedId) wb' movedId = wb' movedId :=
    fun wb' => secondaryPass_preserve movedId rooms _ wb' movedId
      (fun s hs hs2 => absurd hs hs2)
  simp only [springIteration]
  split_ifs
  · rw [hS, hR, hA]
  · rw [hR, hA]

/-- One force iteration leaves a locked member's entry unchanged (with
pairwise distinct ids). -/
theorem springIteration_at_locked (movedId : String) (rooms : List EditorRoom)
    (conns : List RoomConnection) (iter : Nat) (wb : WorkingBounds) (r : EditorRoom)
    (hnd : (rooms.map EditorRoom.id).Nodup) (hr : r ∈ rooms) (hlock : r.isLocked = true) :
    springIteration movedId rooms conns iter wb r.id = wb r.id := by
  have hfind : rooms.find? (fun x => x.id == r.id) = some r := find?_id_eq_self rooms r hnd hr
  have hklocked : ∀ (s : String), s = r.id →
      ∀ cr, rooms.find? (fun x => x.id == s) = some cr → cr.isLocked = true := by
    intro s hs cr hcr
    rw [hs, hfind] at hcr
    injection hcr with h
    rw [← h]
    exact hlock
  have hA : ∀ (wb' : WorkingBounds),
      conns.foldl (attractionStep movedId rooms) wb' r.id = wb' r.id := by
    intro wb'
    refine foldl_preserve _ _ r.id ?_ wb'
    intro wb'' c _
    refine attractionStep_preserve movedId rooms wb'' c r.id ?_
    by_cases hcr : c.roomId = r.id
    · exact Or.inr (hklocked c.roomId hcr)
    · exact Or.inl hcr
  have hR : ∀ (wb' : WorkingBounds),
      rooms.foldl (repulsionStep movedId rooms) wb' r.id = wb' r.id := by
    intro wb'
    refine foldl_preserve _ _ r.id ?_ wb'
    intro wb'' room hroom
    refine repulsionStep_preserve movedId rooms wb'' room r.id ?_
    intro he _ hunlocked
    have hroom_eq : room = r := room_id_injective hnd hroom hr he
    rw [hroom_eq, hlock] at hunlocked
    exact Bool.noConfusion hunlocked
  have hS : ∀ (wb' : WorkingBounds),
      secondaryPass movedId rooms conns wb' r.id = wb' r.id :=
    fun wb' => secondaryPass_preserve movedId rooms conns wb' r.id
      (fun s hs _ => hklocked s.roomId hs)
  simp only [springIteration]
  split_ifs
  · rw [hS, hR, hA]
  · rw [hR, hA]

theorem solverAfterIterations_at_moved (movedId : String) (newB : BoundingBox)
    (rooms : List EditorRoom) (iters : Nat) :
    solverAfterIterations movedId newB rooms iters movedId = newB := by
  unfold solverAfterIterations
  rw [foldl_preserve _ (List.range iters) movedId
    (fun wb iter _ => springIteration_at_moved movedId rooms iter wb)]
  exact updateWB_self _ _ _

theorem solverAfterIterations_at_locked (movedId : String) (newB : BoundingBox)
    (rooms : List EditorRoom) (iters : Nat) (r : EditorRoom)
    (hnd : (rooms.map EditorRoom.id).Nodup) (hr : r ∈ rooms)
    (hlock : r.isLocked = true) (hne : r.id ≠ movedId) :
    solverAfterIterations movedId newB rooms iters r.id = r.bounds := by
  unfold solverAfterIterations
  rw [foldl_preserve _ (List.range iters) r.id
    (fun wb iter _ => springIteration_at_locked movedId rooms _ iter wb r hnd hr hlock)]
  rw [updateWB_ne _ movedId r.id newB hne]
  exact initWB_at rooms r hnd hr

theorem solverCleanupResult_at_moved (movedId : String) (newB : BoundingBox)
    (rooms : List EditorRoom) (grid : GridConfig) (iters : Nat) :
    (solverCleanupResult movedId newB rooms grid iters).1 movedId =
      clampToCanvas (snapBoundsToGrid newB grid) := by
  unfold solverCleanupResult
  rw [cleanupLoop_fst_preserve rooms grid movedId movedId
    (fun room _ he h1 _ => absurd he h1)]
  show clampToCanvas (snapBoundsToGrid
    (solverAfterIterations movedId newB rooms iters movedId) grid) = _
  rw [solverAfterIterations_at_moved]

theorem solverCleanupResult_at_locked (movedId : String) (newB : BoundingBox)
    (rooms : List EditorRoom) (grid : GridConfig) (iters : Nat) (r : EditorRoom)
    (hnd : (rooms.map EditorRoom.id).Nodup) (hr : r ∈ rooms)
    (hlock : r.isLocked = true) (hne : r.id ≠ movedId) :
    (solverCleanupResult movedId newB rooms grid iters).1 r.id =
      clampToCanvas (snapBoundsToGrid r.bounds grid) := by
  unfold solverCleanupResult
  rw [cleanupLoop_fst_preserve rooms grid movedId r.id ?hk]
  · show clampToCanvas (snapBoundsToGrid
      (solverAfterIterations movedId newB rooms iters r.id) grid) = _
    rw [solverAfterIterations_at_locked movedId newB rooms iters r hnd hr hlock hne]
  case hk =>
    intro room hroom he _ hunlocked
    have hroom_eq : room = r := room_id_injective hnd hroom hr he
    rw [hroom_eq, hlock] at hunlocked
    exact Bool.noConfusion hunlocked

theorem applyRoomUpdate_id (wbF : WorkingBounds) (room : EditorRoom) :
    (applyRoomUpdate wbF room).id = room.id := by
  simp only [applyRoomUpdate]
  split <;> rfl

theorem applyRoomUpdate_isLocked (wbF : WorkingBounds) (room : EditorRoom) :
    (applyRoomUpdate wbF room).isLocked = room.isLocked := by
  simp only [applyRoomUpdate]
  split <;> rfl

theorem applyRoomUpdate_bounds (wbF : WorkingBounds) (room : EditorRoom) :
    (applyRoomUpdate wbF room).bounds = wbF room.id := by
  simp only [applyRoomUpdate]
  split
  · rename_i h
    exact h.symm
  · rfl

theorem applyRoomUpdate_eq_self (wbF : WorkingBounds) (room : EditorRoom)
    (h : wbF room.id = room.bounds) : applyRoomUpdate wbF room = room := by
  simp only [applyRoomUpdate, getWB, h, if_pos]

/-- Claim C2 (amended): the moved room's returned bounds are exactly
`newBounds` *snapped to the grid and clamped to the canvas*; they equal
`newBounds` itself only when that snap-and-clamp is the identity on
`newBounds` (e.g. snapping disabled and `newBounds` inside the canvas). -/
theorem applySpringNetwork_moved_room_bounds (movedRoomId : String)
    (newBounds : BoundingBox) (rooms : List EditorRoom) (grid : GridConfig)
    (iterations : Nat) (r : EditorRoom) (hr : r ∈ rooms) (hid : r.id = movedRoomId) :
    ∃ r' ∈ applySpringNetwork movedRoomId newBounds rooms grid iterations,
      r'.id = movedRoomId ∧
      r'.bounds = clampToCanvas (snapBoundsToGrid newBounds grid) := by
  refine ⟨applyRoomUpdate
    (solverCleanupResult movedRoomId newBounds rooms grid iterations).1 r, ?_, ?_, ?_⟩
  · simp only [applySpringNetwork]
    exact List.mem_map_of_mem _ hr
  · rw [applyRoomUpdate_id]
    exact hid
  · rw [applyRoomUpdate_bounds, hid]
    exact solverCleanupResult_at_moved movedRoomId newBounds rooms grid iterations

/-- Witness for C2 (amended): concrete instantiation of the amended
statement on a one-room list. -/
theorem applySpringNetwork_moved_bounds_witness :
    ∃ r' ∈ applySpringNetwork "a" ⟨3, 0, 20, 20⟩ [roomA] ⟨20, true, true⟩ 8,
      r'.id = "a" ∧
      r'.bounds = clampToCanvas (snapBoundsToGrid ⟨3, 0, 20, 20⟩ ⟨20, true, true⟩) :=
  applySpringNetwork_moved_room_bounds "a" ⟨3, 0, 20, 20⟩ [roomA] ⟨20, true, true⟩ 8
    roomA (by simp) rfl

/-- Counterexample for C2 as stated: moving room `"a"` to the off-grid
bounds `⟨3, 0, 20, 20⟩` with snapping on returns it at `⟨0, 0, 20, 20⟩`,
not at the requested bounds. -/
theorem applySpringNetwork_moved_bounds_counterexample :
    ∃ r' ∈ applySpringNetwork "a" ⟨3, 0, 20, 20⟩ [roomA] ⟨20, true, true⟩ 8,
      r'.id = "a" ∧ r'.bounds ≠ ⟨3, 0, 20, 20⟩ := by
  refine ⟨applyRoomUpdate
    (solverCleanupResult "a" ⟨3, 0, 20, 20⟩ [roomA] ⟨20, true, true⟩ 8).1 roomA,
    ?_, ?_, ?_⟩
  · simp only [applySpringNetwork]
    exact List.mem_map_of_mem _ (by simp)
  · rw [applyRoomUpdate_id]
    rfl
  · rw [applyRoomUpdate_bounds]
    have hid : roomA.id = "a" := rfl
    rw [hid, solverCleanupResult_at_moved]
    have h1 : snapToGrid (3 : ℚ) 20 = 0 := by
      have := snapToGrid_eq 3 20 0 (by norm_num) (by norm_num)
      simpa using this
    have h0 : snapToGrid (0 : ℚ) 20 = 0 := by
      have := snapToGrid_eq 0 20 0 (by norm_num) (by norm_num)
      simpa using this
    have h2 : snapToGrid (23 : ℚ) 20 = 20 := by
      have := snapToGrid_eq 23 20 1 (by norm_num) (by norm_num)
      norm_num at this
      exact this
    have h3 : snapToGrid (20 : ℚ) 20 = 20 := by
      have := snapToGrid_eq 20 20 1 (by norm_num) (by norm_num)
      norm_num at this
      exact this
    have hs : snapBoundsToGrid ⟨3, 0, 20, 20⟩ ⟨20, true, true⟩ = ⟨0, 0, 20, 20⟩ := by
      norm_num [snapBoundsToGrid, h0, h1, h2, h3, MIN_ROOM_SIZE]
    rw [hs]
    norm_num [clampToCanvas, CANVAS_SIZE]

/-- Claim C3 (amended): a locked room other than the moved one is never
touched by the attraction, repulsion, secondary or cleanup passes; its
returned bounds are its input bounds passed through the final
snap-and-clamp pass only, and when that pass is the identity on its bounds
the room is returned identically (the same object, all fields intact). -/
theorem applySpringNetwork_locked_room (movedRoomId : String) (newBounds : BoundingBox)
    (rooms : List EditorRoom) (grid : GridConfig) (iterations : Nat) (r : EditorRoom)
    (hnd : (rooms.map EditorRoom.id).Nodup) (hr : r ∈ rooms)
    (hlock : r.isLocked = true) (hne : r.id ≠ movedRoomId) :
    (∃ r' ∈ applySpringNetwork movedRoomId newBounds rooms grid iterations,
      r'.id = r.id ∧ r'.isLocked = true ∧
      r'.bounds = clampToCanvas (snapBoundsToGrid r.bounds grid)) ∧
    (clampToCanvas (snapBoundsToGrid r.bounds grid) = r.bounds →
      r ∈ applySpringNetwork movedRoomId newBounds rooms grid iterations) := by
  have hcore := solverCleanupResult_at_locked movedRoomId newBounds rooms grid
    iterations r hnd hr hlock hne
  constructor
  · refine ⟨applyRoomUpdate
      (solverCleanupResult movedRoomId newBounds rooms grid iterations).1 r, ?_, ?_, ?_, ?_⟩
    · simp only [applySpringNetwork]
      exact List.mem_map_of_mem _ hr
    · rw [applyRoomUpdate_id]
    · rw [applyRoomUpdate_isLocked]
      exact hlock
    · rw [applyRoomUpdate_bounds]
      exact hcore
  · intro hsnap
    have hself : applyRoomUpdate
        (solverCleanupResult movedRoomId newBounds rooms grid iterations).1 r = r :=
      applyRoomUpdate_eq_self _ r (by rw [hcore, hsnap])
    simp only [applySpringNetwork]
    rw [← hself]
    exact List.mem_map_of_mem _ hr

/-- Witness for C3 (amended): a grid-aligned in-canvas locked room is
returned as the identical object. -/
theorem applySpringNetwork_locked_room_witness :
    lockedRoomAligned ∈
      applySpringNetwork "m" ⟨0, 0, 40, 40⟩ [lockedRoomAligned] ⟨20, false, true⟩ 8 := by
  refine (applySpringNetwork_locked_room "m" ⟨0, 0, 40, 40⟩ [lockedRoomAligned]
    ⟨20, false, true⟩ 8 lockedRoomAligned (by simp) (by simp) rfl
    (by simp [lockedRoomAligned])).2 ?_
  rw [show snapBoundsToGrid lockedRoomAligned.bounds ⟨20, false, true⟩ = lockedRoomAligned.bounds
    from by simp [snapBoundsToGrid]]
  show clampToCanvas lockedRoomAligned.bounds = lockedRoomAligned.bounds
  norm_num [clampToCanvas, CANVAS_SIZE, lockedRoomAligned]

/-- Counterexample for C3 as stated: a locked room with off-grid bounds
(`x = 3`) is moved by the final snap-and-clamp pass (to `x = 0`) even
though no pass of the solver proper touches it. -/
theorem applySpringNetwork_locked_counterexample :
    ∃ r' ∈ applySpringNetwork "m" ⟨500, 500, 40, 40⟩ [lockedRoom] ⟨20, true, true⟩ 8,
      r'.id = "locked" ∧ r'.isLocked = true ∧ r'.bounds ≠ lockedRoom.bounds := by
  refine ⟨applyRoomUpdate
    (solverCleanupResult "m" ⟨500, 500, 40, 40⟩ [lockedRoom] ⟨20, true, true⟩ 8).1 lockedRoom,
    ?_, ?_, ?_, ?_⟩
  · simp only [applySpringNetwork]
    exact List.mem_map_of_mem _ (by simp)
  · rw [applyRoomUpdate_id]
    rfl
  · rw [applyRoomUpdate_isLocked]
    rfl
  · rw [applyRoomUpdate_bounds]
    have hcore := solverCleanupResult_at_locked "m" ⟨500, 500, 40, 40⟩ [lockedRoom]
      ⟨20, true, true⟩ 8 lockedRoom (by simp) (by simp) rfl (by simp [lockedRoom])
    rw [hcore]
    have h1 : snapToGrid (3 : ℚ) 20 = 0 := by
      have := snapToGrid_eq 3 20 0 (by norm_num) (by norm_num)
      simpa using this
    have h0 : snapToGrid (0 : ℚ) 20 = 0 := by
      have := snapToGrid_eq 0 20 0 (by norm_num) (by norm_num)
      simpa using this
    have h2 : snapToGrid (43 : ℚ) 20 = 40 := by
      have := snapToGrid_eq 43 20 2 (by norm_num) (by norm_num)
      norm_num at this
      exact this
    have h3 : snapToGrid (40 : ℚ) 20 = 40 := by
      have := snapToGrid_eq 40 20 2 (by norm_num) (by norm_num)
      norm_num at this
      exact this
    have hs : snapBoundsToGrid lockedRoom.bounds ⟨20, true, true⟩ = ⟨0, 0, 40, 40⟩ := by
      show snapBoundsToGrid ⟨3, 0, 40, 40⟩ ⟨20, true, true⟩ = ⟨0, 0, 40, 40⟩
      norm_num [snapBoundsToGrid, h0, h1, h2, h3, MIN_ROOM_SIZE]
    rw [hs]
    show clampToCanvas ⟨0, 0, 40, 40⟩ ≠ lockedRoom.bounds
    norm_num [clampToCanvas, CANVAS_SIZE, lockedRoom]

theorem boundsOverlap_comm (a b : BoundingBox) :
    boundsOverlap a b = boundsOverlap b a := by
  unfold boundsOverlap
  congr 1
  simp only [Bool.or_comm, Bool.or_left_comm, Bool.or_assoc]

/-- If the cleanup inner step reports no overlap, it changed nothing, the
incoming flag was already clear, and (for a genuinely different room) the
stale bounds do not overlap that room's current entry. -/
theorem cleanupInnerStep_false (grid : GridConfig) (rid : String) (B : BoundingBox)
    (st : WorkingBounds × Bool) (other : EditorRoom)
    (h : (cleanupInnerStep grid rid B st other).2 = false) :
    cleanupInnerStep grid rid B st other = st ∧ st.2 = false ∧
      (other.id ≠ rid → boundsOverlap B (st.1 other.id) = false) := by
  by_cases h1 : other.id = rid
  · have hstep : cleanupInnerStep grid rid B st other = st := by
      simp only [cleanupInnerStep, if_pos h1]
    rw [hstep] at h
    exact ⟨hstep, h, fun hne => absurd h1 hne⟩
  · by_cases h2 : boundsOverlap B (getWB st.1 other.id) = true
    · exfalso
      simp only [cleanupInnerStep, if_neg h1, h2, if_true] at h
      exact Bool.noConfusion h
    · have h2' : boundsOverlap B (getWB st.1 other.id) = false := by
        cases hb : boundsOverlap B (getWB st.1 other.id)
        · rfl
        · exact absurd hb h2
      have hstep : cleanupInnerStep grid rid B st other = st := by
        simp only [cleanupInnerStep, if_neg h1, h2', Bool.false_eq_true, if_false]
      rw [hstep] at h
      exact ⟨hstep, h, fun _ => h2'⟩

/-- Inner-loop version of `cleanupInnerStep_false`, by induction over the
list of other rooms. -/
theorem cleanupInnerFold_false (grid : GridConfig) (rid : String) (B : BoundingBox) :
    ∀ (l : List EditorRoom) (st : WorkingBounds × Bool),
      (l.foldl (cleanupInnerStep grid rid B) st).2 = false →
      l.foldl (cleanupInnerStep grid rid B) st = st ∧ st.2 = false ∧
        ∀ other ∈ l, other.id ≠ rid → boundsOverlap B (st.1 other.id) = false := by
  intro l
  induction l with
  | nil =>
    intro st h
    exact ⟨rfl, h, by simp⟩
  | cons a t ih =>
    intro st h
    rw [List.foldl_cons] at h
    obtain ⟨hfold_eq, hstep_false, hrest⟩ := ih (cleanupInnerStep grid rid B st a) h
    obtain ⟨hstep_eq, hst_false, hova⟩ := cleanupInnerStep_false grid rid B st a hstep_false
    rw [hstep_eq] at hfold_eq hrest
    refine ⟨by rw [List.foldl_cons, hstep_eq, hfold_eq], hst_false, ?_⟩
    intro other hother hne
    rcases List.mem_cons.1 hother with rfl | hmem
    · exact hova hne
    · exact hrest other hmem hne

/-- If the cleanup outer step reports no overlap, it changed nothing and,
when the room takes part in the sweep at all, its entry overlaps no other
room's entry. -/
theorem cleanupRoomStep_false (rooms : List EditorRoom) (grid : GridConfig)
    (movedId : String) (st : WorkingBounds × Bool) (room : EditorRoom)
    (h : (cleanupRoomStep rooms grid movedId st room).2 = false) :
    cleanupRoomStep rooms grid movedId st room = st ∧ st.2 = false ∧
      (room.id ≠ movedId → room.isLocked = false →
        ∀ other ∈ rooms, other.id ≠ room.id →
          boundsOverlap (st.1 room.id) (st.1 other.id) = false) := by
  by_cases hg : room.id = movedId ∨ room.isLocked = true
  · have hstep : cleanupRoomStep rooms grid movedId st room = st := by
      simp only [cleanupRoomStep, if_pos hg]
    rw [hstep] at h
    refine ⟨hstep, h, ?_⟩
    intro hm hl
    rcases hg with hg | hg
    · exact absurd hg hm
    · rw [hg] at hl
      exact absurd hl (by simp)
  · have hstep : cleanupRoomStep rooms grid movedId st room =
        rooms.foldl (cleanupInnerStep grid room.id (getWB st.1 room.id)) st := by
      simp only [cleanupRoomStep, if_neg hg]
    rw [hstep] at h
    obtain ⟨heq, hfalse, hov⟩ :=
      cleanupInnerFold_false grid room.id (getWB st.1 room.id) rooms st h
    exact ⟨by rw [hstep, heq], hfalse, fun _ _ other hother hne => hov other hother hne⟩

/-- Outer-loop version: a sweep segment that ends with a clear flag changed
nothing and certifies pairwise disjointness for its rooms. -/
theorem cleanupSweepFold_false (rooms : List EditorRoom) (grid : GridConfig)
    (movedId : String) :
    ∀ (l : List EditorRoom) (st : WorkingBounds × Bool),
      (l.foldl (cleanupRoomStep rooms grid movedId) st).2 = false →
      l.foldl (cleanupRoomStep rooms grid movedId) st = st ∧ st.2 = false ∧
        ∀ room ∈ l, room.id ≠ movedId → room.isLocked = false →
          ∀ other ∈ rooms, other.id ≠ room.id →
            boundsOverlap (st.1 room.id) (st.1 other.id) = false := by
  intro l
  induction l with
  | nil =>
    intro st h
    exact ⟨rfl, h, by simp⟩
  | cons a t ih =>
    intro st h
    rw [List.foldl_cons] at h
    obtain ⟨hfold_eq, hstep_false, hrest⟩ := ih (cleanupRoomStep rooms grid movedId st a) h
    obtain ⟨hstep_eq, hst_false, hova⟩ := cleanupRoomStep_false rooms grid movedId st a hstep_false
    rw [hstep_eq] at hfold_eq hrest
    refine ⟨by rw [List.foldl_cons, hstep_eq, hfold_eq], hst_false, ?_⟩
    intro room hroom hm hl other hother hne
    rcases List.mem_cons.1 hroom with rfl | hmem
    · exact hova hm hl other hother hne
    · exact hrest room hmem hm hl other hother hne

/-- A full sweep that ends with a clear flag leaves the store unchanged and
certifies that every unlocked non-moved room overlaps no other room. -/
theorem cleanupSweep_false (rooms : List EditorRoom) (grid : GridConfig)
    (movedId : String) (wb : WorkingBounds)
    (h : (cleanupSweep rooms grid movedId wb).2 = false) :
    (cleanupSweep rooms grid movedId wb).1 = wb ∧
      ∀ room ∈ rooms, room.id ≠ movedId → room.isLocked = false →
        ∀ other ∈ rooms, other.id ≠ room.id →
          boundsOverlap (wb room.id) (wb other.id) = false := by
  unfold cleanupSweep at h ⊢
  obtain ⟨heq, -, hprop⟩ := cleanupSweepFold_false rooms grid movedId rooms (wb, false) h
  exact ⟨by rw [heq], hprop⟩

/-- If the cleanup loop exits with a clear flag, the final store makes every
unlocked non-moved room disjoint from every other room. -/
theorem cleanupLoop_false (rooms : List EditorRoom) (grid : GridConfig)
    (movedId : String) :
    ∀ (fuel : Nat) (wb : WorkingBounds),
      (cleanupLoop rooms grid movedId fuel wb).2 = false →
      ∀ room ∈ rooms, room.id ≠ movedId → room.isLocked = false →
        ∀ other ∈ rooms, other.id ≠ room.id →
          boundsOverlap ((cleanupLoop rooms grid movedId fuel wb).1 room.id)
            ((cleanupLoop rooms grid movedId fuel wb).1 other.id) = false := by
  intro fuel
  induction fuel with
  | zero =>
    intro wb h
    exact absurd h (by simp [cleanupLoop])
  | succ n ih =>
    intro wb h
    simp only [cleanupLoop] at h ⊢
    cases hs : (cleanupSweep rooms grid movedId wb).2 with
    | false =>
      simp only [hs, Bool.false_eq_true, if_false] at h ⊢
      obtain ⟨heq, hprop⟩ := cleanupSweep_false rooms grid movedId wb hs
      intro room hroom hm hl other hother hne
      rw [heq]
      exact hprop room hroom hm hl other hother hne
    | true =>
      simp only [hs, if_true] at h ⊢
      exact ih (cleanupSweep rooms grid movedId wb).1 h

/-- Claim C1: after `applySpringNetwork`, whenever the bounded cleanup loop
ended with its overlap flag clear (the only exception the claim allows is
the 10-pass cap being hit with overlaps still present, which is exactly a
final `hasOverlap = true`), every pair of distinct unlocked rooms in the
returned list has non-overlapping bounds.  Distinctness of rooms is by id
(the data model's stable-id assumption; rooms are identified by id
throughout the solver). -/
theorem applySpringNetwork_no_overlap (movedRoomId : String) (newBounds : BoundingBox)
    (rooms : List EditorRoom) (grid : GridConfig) (iterations : Nat)
    (hflag : (solverCleanupResult movedRoomId newBounds rooms grid iterations).2 = false) :
    ∀ r1 ∈ applySpringNetwork movedRoomId newBounds rooms grid iterations,
      ∀ r2 ∈ applySpringNetwork movedRoomId newBounds rooms grid iterations,
        r1.id ≠ r2.id → r1.isLocked = false → r2.isLocked = false →
        boundsOverlap r1.bounds r2.bounds = false := by
  intro r1 h1 r2 h2 hne hl1 hl2
  simp only [applySpringNetwork] at h1 h2
  obtain ⟨a, ha, rfl⟩ := List.mem_map.1 h1
  obtain ⟨b, hb, rfl⟩ := List.mem_map.1 h2
  rw [applyRoomUpdate_id, applyRoomUpdate_id] at hne
  rw [applyRoomUpdate_isLocked] at hl1 hl2
  rw [applyRoomUpdate_bounds, applyRoomUpdate_bounds]
  have hprop := cleanupLoop_false rooms grid movedRoomId 10
    (snapClampAll grid (solverAfterIterations movedRoomId newBounds rooms iterations)) hflag
  show boundsOverlap
    ((cleanupLoop rooms grid movedRoomId 10
      (snapClampAll grid (solverAfterIterations movedRoomId newBounds rooms iterations))).1 a.id)
    ((cleanupLoop rooms grid movedRoomId 10
      (snapClampAll grid (solverAfterIterations movedRoomId newBounds rooms iterations))).1 b.id)
      = false
  by_cases haM : a.id = movedRoomId
  · have hbM : b.id ≠ movedRoomId := by
      intro he
      exact hne (by rw [haM, he])
    rw [boundsOverlap_comm]
    exact hprop b hb hbM hl2 a ha hne
  · exact hprop a ha haM hl1 b hb (Ne.symm hne)

/-- Converse direction for the witness: an inner step with no overlap is the
identity. -/
theorem cleanupInnerStep_of_no_overlap (grid : GridConfig) (rid : String)
    (B : BoundingBox) (st : WorkingBounds × Bool) (other : EditorRoom)
    (h : other.id ≠ rid → boundsOverlap B (st.1 other.id) = false) :
    cleanupInnerStep grid rid B st other = st := by
  by_cases h1 : other.id = rid
  · simp only [cleanupInnerStep, if_pos h1]
  · simp only [cleanupInnerStep, if_neg h1, getWB, h h1, Bool.false_eq_true, if_false]

theorem cleanupInnerFold_of_no_overlap (grid : GridConfig) (rid : String)
    (B : BoundingBox) (l : List EditorRoom) (st : WorkingBounds × Bool)
    (h : ∀ other ∈ l, other.id ≠ rid → boundsOverlap B (st.1 other.id) = false) :
    l.foldl (cleanupInnerStep grid rid B) st = st := by
  induction l with
  | nil => rfl
  | cons a t ih =>
    rw [List.foldl_cons,
      cleanupInnerStep_of_no_overlap grid rid B st a (h a (List.mem_cons_self a t))]
    exact ih (fun other ho hne => h other (List.mem_cons_of_mem a ho) hne)

theorem cleanupRoomStep_of_no_overlap (rooms : List EditorRoom) (grid : GridConfig)
    (movedId : String) (st : WorkingBounds × Bool) (room : EditorRoom)
    (h : room.id ≠ movedId → room.isLocked = false →
      ∀ other ∈ rooms, other.id ≠ room.id →
        boundsOverlap (st.1 room.id) (st.1 other.id) = false) :
    cleanupRoomStep rooms grid movedId st room = st := by
  by_cases hg : room.id = movedId ∨ room.isLocked = true
  · simp only [cleanupRoomStep, if_pos hg]
  · have hm : room.id ≠ movedId := fun he => hg (Or.inl he)
    have hl : room.isLocked = false := by
      cases hL : room.isLocked
      · rfl
      · exact absurd (Or.inr hL) hg
    simp only [cleanupRoomStep, if_neg hg]
    exact cleanupInnerFold_of_no_overlap grid room.id _ rooms st (h hm hl)

theorem foldl_fixed {α : Type} (step : WorkingBounds × Bool → α → WorkingBounds × Bool)
    (l : List α) (st : WorkingBounds × Bool) (h : ∀ a ∈ l, step st a = st) :
    l.foldl step st = st := by
  induction l with
  | nil => rfl
  | cons a t ih =>
    rw [List.foldl_cons, h a (List.mem_cons_self a t)]
    exact ih (fun a' ha' => h a' (List.mem_cons_of_mem a ha'))

/-- A store in which every unlocked non-moved room is disjoint from every
other room passes the sweep without flagging or changing anything. -/
theorem cleanupSweep_of_no_overlap (rooms : List EditorRoom) (grid : GridConfig)
    (movedId : String) (wb : WorkingBounds)
    (h : ∀ room ∈ rooms, room.id ≠ movedId → room.isLocked = false →
      ∀ other ∈ rooms, other.id ≠ room.id →
        boundsOverlap (wb room.id) (wb other.id) = false) :
    cleanupSweep rooms grid movedId wb = (wb, false) := by
  unfold cleanupSweep
  exact foldl_fixed _ rooms (wb, false)
    (fun room hroom =>
      cleanupRoomStep_of_no_overlap rooms grid movedId (wb, false) room
        (fun hm hl => h room hroom hm hl))

theorem cleanupLoop_flag_of_sweep_false (rooms : List EditorRoom) (grid : GridConfig)
    (movedId : String) (n : Nat) (wb : WorkingBounds)
    (h : cleanupSweep rooms grid movedId wb = (wb, false)) :
    (cleanupLoop rooms grid movedId (n + 1) wb).2 = false := by
  simp only [cleanupLoop, h, Bool.false_eq_true, if_false]

/-- Witness for C1: a two-room scenario (moved room kept in place, second
room far away) in which the cleanup loop exits with a clear flag, so the two
returned unlocked rooms do not overlap. -/
theorem applySpringNetwork_no_overlap_witness :
    boundsOverlap
      (applyRoomUpdate
        (solverCleanupResult "a" ⟨0, 0, 40, 40⟩ [roomA2, roomB] ⟨20, false, true⟩ 0).1
        roomA2).bounds
      (applyRoomUpdate
        (solverCleanupResult "a" ⟨0, 0, 40, 40⟩ [roomA2, roomB] ⟨20, false, true⟩ 0).1
        roomB).bounds = false := by
  have hva : snapClampAll ⟨20, false, true⟩
      (solverAfterIterations "a" ⟨0, 0, 40, 40⟩ [roomA2, roomB] 0) "a" = ⟨0, 0, 40, 40⟩ := by
    show clampToCanvas (snapBoundsToGrid
      (solverAfterIterations "a" ⟨0, 0, 40, 40⟩ [roomA2, roomB] 0 "a") ⟨20, false, true⟩)
        = ⟨0, 0, 40, 40⟩
    rw [solverAfterIterations_at_moved]
    rw [show snapBoundsToGrid ⟨0, 0, 40, 40⟩ ⟨20, false, true⟩ = ⟨0, 0, 40, 40⟩
      from by simp [snapBoundsToGrid]]
    norm_num [clampToCanvas, CANVAS_SIZE]
  have hvb : snapClampAll ⟨20, false, true⟩
      (solverAfterIterations "a" ⟨0, 0, 40, 40⟩ [roomA2, roomB] 0) "b" = ⟨100, 0, 40, 40⟩ := by
    show clampToCanvas (snapBoundsToGrid
      (solverAfterIterations "a" ⟨0, 0, 40, 40⟩ [roomA2, roomB] 0 "b") ⟨20, false, true⟩)
        = ⟨100, 0, 40, 40⟩
    have h0 : solverAfterIterations "a" ⟨0, 0, 40, 40⟩ [roomA2, roomB] 0 "b"
        = ⟨100, 0, 40, 40⟩ := by
      simp only [solverAfterIterations, List.range_zero, List.foldl_nil]
      rw [updateWB_ne _ _ _ _ (by simp)]
      have := initWB_at [roomA2, roomB] roomB (by simp [roomA2, roomB]) (by simp)
      simpa [roomB] using this
    rw [h0, show snapBoundsToGrid ⟨100, 0, 40, 40⟩ ⟨20, false, true⟩ = ⟨100, 0, 40, 40⟩
      from by simp [snapBoundsToGrid]]
    norm_num [clampToCanvas, CANVAS_SIZE]
  have hdisj : ∀ room ∈ [roomA2, roomB], room.id ≠ "a" → room.isLocked = false →
      ∀ other ∈ [roomA2, roomB], other.id ≠ room.id →
        boundsOverlap
          (snapClampAll ⟨20, false, true⟩
            (solverAfterIterations "a" ⟨0, 0, 40, 40⟩ [roomA2, roomB] 0) room.id)
          (snapClampAll ⟨20, false, true⟩
            (solverAfterIterations "a" ⟨0, 0, 40, 40⟩ [roomA2, roomB] 0) other.id) = false := by
    intro room hroom hm _ other hother hne
    rcases List.mem_cons.1 hroom with rfl | hroom2
    · exact absurd rfl hm
    · rcases List.mem_cons.1 hroom2 with rfl | hroom3
      · rcases List.mem_cons.1 hother with rfl | hother2
        · show boundsOverlap
            (snapClampAll ⟨20, false, true⟩ _ roomB.id)
            (snapClampAll ⟨20, false, true⟩ _ roomA2.id) = false
          show boundsOverlap
            (snapClampAll ⟨20, false, true⟩ _ "b")
            (snapClampAll ⟨20, false, true⟩ _ "a") = false
          rw [hva, hvb]
          norm_num [boundsOverlap]
        · rcases List.mem_cons.1 hother2 with rfl | hother3
          · exact absurd rfl hne
          · exact absurd hother3 (List.not_mem_nil other)
      · exact absurd hroom3 (List.not_mem_nil room)
  have hflag : (solverCleanupResult "a" ⟨0, 0, 40, 40⟩ [roomA2, roomB]
      ⟨20, false, true⟩ 0).2 = false := by
    unfold solverCleanupResult
    rw [show (10 : Nat) = 9 + 1 from rfl]
    exact cleanupLoop_flag_of_sweep_false _ _ _ 9 _
      (cleanupSweep_of_no_overlap _ _ _ _ hdisj)
  exact applySpringNetwork_no_overlap "a" ⟨0, 0, 40, 40⟩ [roomA2, roomB]
    ⟨20, false, true⟩ 0 hflag
    _ (by simp only [applySpringNetwork]; exact List.mem_map_of_mem _ (by simp))
    _ (by simp only [applySpringNetwork]; exact List.mem_map_of_mem _ (by simp))
    (by rw [applyRoomUpdate_id, applyRoomUpdate_id]; simp [roomA2, roomB])
    (by rw [applyRoomUpdate_isLocked]; rfl)
    (by rw [applyRoomUpdate_isLocked]; rfl)

end DiversityGenerator
